import Mathlib

/-!
# Verification of the ghagent-showcase User Management core

Shallow embedding of the repository's frontend User Management core
(`src/frontend/src/utils/sanitize.ts`, `src/frontend/src/services/api.ts`,
`src/frontend/src/components/UserForm.tsx`, `src/frontend/src/pages/Users.tsx`)
and of the backend `ServerInfoController`, together with theorems settling the
specification claims about them.
-/

set_option autoImplicit false

namespace Showcase

/-- The sole domain entity (`src/frontend/src/types/user.ts`):
`{ id: number, name: string, email: string }`. -/
structure User where
  id : Nat
  name : String
  email : String
deriving Repr, DecidableEq

/-- Payload of a create/update request: `{ name, email }` (CreateUserDto). -/
structure CreateUserDto where
  name : String
  email : String
deriving Repr, DecidableEq

/-! ## utils/sanitize.ts -/

/-- JavaScript's `String.prototype.trim`, modelled on the character list:
drop whitespace from both ends of the string. -/
def jsTrim (s : String) : String :=
  ⟨((s.data.dropWhile Char.isWhitespace).reverse.dropWhile Char.isWhitespace).reverse⟩

/-- Embedding of `isNotEmpty` from `sanitize.ts`: `value.trim().length > 0`. -/
def isNotEmpty (value : String) : Bool :=
  (jsTrim value).length > 0

/-- The character class `[^\s@]` of the email regex in `sanitize.ts`:
any character that is neither whitespace nor `@`. -/
def isEmailChar (c : Char) : Bool :=
  !c.isWhitespace && c != '@'

/-- Matcher for the terminal piece `[^\s@]+$` of the email regex:
a non-empty run of email characters reaching the end of input. -/
def matchRun (l : List Char) : Bool :=
  !l.isEmpty && l.all isEmailChar

/-- Backtracking matcher for `[^\s@]*\.[^\s@]+$`: some (possibly empty) run of
email characters, then a literal dot, then a non-empty run to the end.
This is the part of the regex that remains after the first character of the
domain has been consumed. -/
def matchTail : List Char → Bool
  | [] => false
  | c :: rest => (c == '.' && matchRun rest) || (isEmailChar c && matchTail rest)

/-- Matcher for the domain piece `[^\s@]+\.[^\s@]+$` of the email regex. -/
def matchDomain : List Char → Bool
  | [] => false
  | c :: rest => isEmailChar c && matchTail rest

/-- Backtracking matcher for `[^\s@]*@[^\s@]+\.[^\s@]+$`: the rest of the
local part, then the literal `@`, then the domain piece. -/
def matchLocal : List Char → Bool
  | [] => false
  | c :: rest => (c == '@' && matchDomain rest) || (isEmailChar c && matchLocal rest)

/-- Embedding of `isValidEmail` from `sanitize.ts`: whether the whole string matches the
anchored regex `^[^\s@]+@[^\s@]+\.[^\s@]+$`. -/
def isValidEmail (s : String) : Bool :=
  match s.data with
  | [] => false
  | c :: rest => isEmailChar c && matchLocal rest

/-! ### Characterization of the matchers -/

theorem matchRun_iff (l : List Char) :
    matchRun l = true ↔ l ≠ [] ∧ ∀ c ∈ l, isEmailChar c = true := by
  simp [matchRun, List.isEmpty_iff, List.all_eq_true]

theorem matchTail_iff (l : List Char) :
    matchTail l = true ↔
      ∃ b c, l = b ++ '.' :: c ∧ (∀ x ∈ b, isEmailChar x = true) ∧
        c ≠ [] ∧ ∀ x ∈ c, isEmailChar x = true := by
  induction l with
  | nil =>
    constructor
    · intro h
      simp [matchTail] at h
    · rintro ⟨b, c, h, -, -, -⟩
      exact absurd h (by simp)
  | cons a rest ih =>
    simp only [matchTail, Bool.or_eq_true, Bool.and_eq_true, beq_iff_eq, ih]
    constructor
    · rintro (⟨rfl, hrun⟩ | ⟨ha, b, c, rfl, hb, hc, hcall⟩)
      · rcases (matchRun_iff rest).mp hrun with ⟨hne, hall⟩
        exact ⟨[], rest, rfl, by simp, hne, hall⟩
      · exact ⟨a :: b, c, rfl, List.forall_mem_cons.mpr ⟨ha, hb⟩, hc, hcall⟩
    · rintro ⟨b, c, hsplit, hb, hc, hcall⟩
      cases b with
      | nil =>
        simp only [List.nil_append, List.cons.injEq] at hsplit
        rcases hsplit with ⟨rfl, rfl⟩
        exact Or.inl ⟨rfl, (matchRun_iff _).mpr ⟨hc, hcall⟩⟩
      | cons x b =>
        simp only [List.cons_append, List.cons.injEq] at hsplit
        rcases hsplit with ⟨rfl, rfl⟩
        rcases List.forall_mem_cons.mp hb with ⟨hx, hb⟩
        exact Or.inr ⟨hx, b, c, rfl, hb, hc, hcall⟩

theorem matchDomain_iff (l : List Char) :
    matchDomain l = true ↔
      ∃ b c, l = b ++ '.' :: c ∧ b ≠ [] ∧ (∀ x ∈ b, isEmailChar x = true) ∧
        c ≠ [] ∧ ∀ x ∈ c, isEmailChar x = true := by
  cases l with
  | nil =>
    constructor
    · intro h
      simp [matchDomain] at h
    · rintro ⟨b, c, h, -, -, -, -⟩
      exact absurd h (by simp)
  | cons a rest =>
    simp only [matchDomain, Bool.and_eq_true, matchTail_iff]
    constructor
    · rintro ⟨ha, b, c, rfl, hb, hc, hcall⟩
      exact ⟨a :: b, c, rfl, by simp, List.forall_mem_cons.mpr ⟨ha, hb⟩, hc, hcall⟩
    · rintro ⟨b, c, hsplit, hbne, hb, hc, hcall⟩
      cases b with
      | nil => exact absurd rfl hbne
      | cons x b =>
        simp only [List.cons_append, List.cons.injEq] at hsplit
        rcases hsplit with ⟨rfl, rfl⟩
        rcases List.forall_mem_cons.mp hb with ⟨hx, hb⟩
        exact ⟨hx, b, c, rfl, hb, hc, hcall⟩

theorem isEmailChar_at_false : isEmailChar '@' = false := by
  decide

theorem matchLocal_iff (l : List Char) :
    matchLocal l = true ↔
      ∃ a rest, l = a ++ '@' :: rest ∧ (∀ x ∈ a, isEmailChar x = true) ∧
        matchDomain rest = true := by
  induction l with
  | nil =>
    constructor
    · intro h
      simp [matchLocal] at h
    · rintro ⟨a, rest, h, -, -⟩
      exact absurd h (by simp)
  | cons x tail ih =>
    simp only [matchLocal, Bool.or_eq_true, Bool.and_eq_true, beq_iff_eq, ih]
    constructor
    · rintro (⟨rfl, hdom⟩ | ⟨hx, a, rest, rfl, ha, hdom⟩)
      · exact ⟨[], tail, rfl, by simp, hdom⟩
      · exact ⟨x :: a, rest, rfl, List.forall_mem_cons.mpr ⟨hx, ha⟩, hdom⟩
    · rintro ⟨a, rest, hsplit, ha, hdom⟩
      cases a with
      | nil =>
        simp only [List.nil_append, List.cons.injEq] at hsplit
        rcases hsplit with ⟨rfl, rfl⟩
        exact Or.inl ⟨rfl, hdom⟩
      | cons y a =>
        simp only [List.cons_append, List.cons.injEq] at hsplit
        rcases hsplit with ⟨rfl, rfl⟩
        rcases List.forall_mem_cons.mp ha with ⟨hy, ha⟩
        exact Or.inr ⟨hy, a, rest, rfl, ha, hdom⟩

theorem isValidEmail_iff (s : String) :
    isValidEmail s = true ↔
      ∃ a b c : List Char,
        s.data = a ++ '@' :: (b ++ '.' :: c) ∧
        a ≠ [] ∧ b ≠ [] ∧ c ≠ [] ∧
        (∀ x ∈ a, isEmailChar x = true) ∧
        (∀ x ∈ b, isEmailChar x = true) ∧
        (∀ x ∈ c, isEmailChar x = true) := by
  unfold isValidEmail
  cases hdata : s.data with
  | nil =>
    constructor
    · intro h
      simp at h
    · rintro ⟨a, b, c, h, -, -, -, -, -, -⟩
      exact absurd h (by simp)
  | cons x tail =>
    simp only [Bool.and_eq_true, matchLocal_iff]
    constructor
    · rintro ⟨hx, a, rest, rfl, ha, hdom⟩
      rcases (matchDomain_iff rest).mp hdom with ⟨b, c, rfl, hbne, hb, hc, hcall⟩
      exact ⟨x :: a, b, c, rfl, by simp, hbne, hc,
        List.forall_mem_cons.mpr ⟨hx, ha⟩, hb, hcall⟩
    · rintro ⟨a, b, c, hsplit, hane, hbne, hcne, ha, hb, hc⟩
      cases a with
      | nil => exact absurd rfl hane
      | cons y a =>
        simp only [List.cons_append, List.cons.injEq] at hsplit
        rcases hsplit with ⟨rfl, rfl⟩
        rcases List.forall_mem_cons.mp ha with ⟨hy, ha⟩
        exact ⟨hy, a, b ++ '.' :: c, rfl, ha,
          (matchDomain_iff _).mpr ⟨b, c, rfl, hbne, hb, hcne, hc⟩⟩

/-! ## services/api.ts -/

/-- An HTTP response as seen by the API Client (`fetch`'s `Response`):
status code, status text, body text, and the body parsed as JSON.
`jsonBody` models `response.json()`; `bodyText` models `response.text()`. -/
structure HttpResponse (T : Type) where
  status : Nat
  statusText : String
  bodyText : String
  jsonBody : T
deriving Repr, DecidableEq

/-- Embedding of `Response.ok` per the fetch standard: status is in the success range
200..299. This is what `api.ts` branches on. -/
def respOk {T : Type} (r : HttpResponse T) : Bool :=
  200 ≤ r.status && r.status ≤ 299

/-- The `ApiError` class of `api.ts`: HTTP status plus message. -/
structure ApiErr where
  status : Nat
  message : String
deriving Repr, DecidableEq

/-- Embedding of `handleResponse` from `api.ts`: on a non-ok response, throw
`ApiError(status, errorText || statusText)` (JavaScript `||`: the status text
is used when the body text is the empty string); otherwise return the parsed
JSON body. -/
def handleResponse {T : Type} (r : HttpResponse T) : Except ApiErr T :=
  if respOk r then Except.ok r.jsonBody
  else Except.error ⟨r.status, if r.bodyText = "" then r.statusText else r.bodyText⟩

/-- Embedding of the `userService.deleteUser` response handling from `api.ts`: duplicated inline
version of the same logic, returning nothing on success. -/
def deleteUserHandle (r : HttpResponse Unit) : Except ApiErr Unit :=
  if respOk r then Except.ok ()
  else Except.error ⟨r.status, if r.bodyText = "" then r.statusText else r.bodyText⟩

/-! ## pages/Users.tsx -/

/-- The observable state `Users.tsx` holds in React hooks:
`users`, `loading`, `error`, `selectedUser`. -/
structure ViewState where
  users : List User
  loading : Bool
  error : Option String
  selectedUser : Option User
deriving Repr, DecidableEq

/-- The initial hook values of `Users.tsx`:
`useState<User[]>([])`, `useState(true)`, `useState<string | null>(null)`,
`useState<User | null>(null)`. -/
def initialViewState : ViewState :=
  ⟨[], true, none, none⟩

/-- Outcome of an awaited API Client call as observed by a catch block:
resolution with a value, rejection with an `ApiError`, or rejection with
anything else (the `instanceof ApiError` test fails). -/
inductive ApiOutcome (T : Type) where
  | ok : T → ApiOutcome T
  | apiError : Nat → String → ApiOutcome T
  | unexpected : ApiOutcome T
deriving Repr, DecidableEq

/-- A request issued through the API Client, used to record which network
calls a handler makes. -/
inductive ApiCall where
  | getUsersCall : ApiCall
  | createUserCall : CreateUserDto → ApiCall
  | updateUserCall : Nat → CreateUserDto → ApiCall
  | deleteUserCall : Nat → ApiCall
deriving Repr, DecidableEq

/-- The state of `Users.tsx` while `loadUsers` awaits `getUsers()`:
`setLoading(true); setError(null)` have run, the await is pending. -/
def loadUsersPending (s : ViewState) : ViewState :=
  { s with loading := true, error := none }

/-- Embedding of `loadUsers` from `Users.tsx`, given the outcome of the single
`userService.getUsers()` call it makes: on success `setUsers(data)`; on
`ApiError` set a formatted message; otherwise the generic fallback; in all
cases `finally setLoading(false)`. -/
def loadUsers (s : ViewState) (r : ApiOutcome (List User)) : ViewState :=
  let s1 := loadUsersPending s
  match r with
  | ApiOutcome.ok data => { s1 with users := data, loading := false }
  | ApiOutcome.apiError _ msg =>
      { s1 with error := some ("Failed to load users: " ++ msg), loading := false }
  | ApiOutcome.unexpected =>
      { s1 with error := some "An unexpected error occurred", loading := false }

/-- The network calls `loadUsers` issues: exactly one `getUsers()`. -/
def loadUsersCalls : List ApiCall :=
  [ApiCall.getUsersCall]

/-- The mount effect of `Users.tsx` (`useEffect(..., [])`): runs `loadUsers`
once from the initial state; returns the resulting state and the list of
network calls made. -/
def mountEffect (r : ApiOutcome (List User)) : ViewState × List ApiCall :=
  (loadUsers initialViewState r, loadUsersCalls)

/-- Embedding of `handleCreateUser` from `Users.tsx`, given the outcome of the
`userService.createUser(userDto)` call: `setError(null)` then on success
append the returned user (`setUsers([...users, newUser])`); on `ApiError`
set a formatted message; otherwise the generic fallback. -/
def handleCreateUser (s : ViewState) (r : ApiOutcome User) : ViewState :=
  match r with
  | ApiOutcome.ok newUser => { s with error := none, users := s.users ++ [newUser] }
  | ApiOutcome.apiError _ msg => { s with error := some ("Failed to create user: " ++ msg) }
  | ApiOutcome.unexpected => { s with error := some "An unexpected error occurred" }

/-- The submit handler that `Users.tsx` wires into `UserForm` is
`handleCreateUser`, unconditionally: `<UserForm ... onSubmit={handleCreateUser} ...>`,
whether or not `selectedUser` is set. The issued network call is therefore
always `createUser(dto)`. -/
def usersFormSubmit (s : ViewState) (dto : CreateUserDto) (r : ApiOutcome User) :
    ViewState × List ApiCall :=
  (handleCreateUser s r, [ApiCall.createUserCall dto])

/-- Embedding of `handleDeleteUser` from `Users.tsx`, given whether the
`window.confirm` gate was accepted and the outcome of the
`userService.deleteUser(id)` call: on decline, return immediately with no
network call; on success filter out the id (`users.filter(u => u.id !== id)`)
and clear `selectedUser` when `selectedUser?.id === id`; on `ApiError` set a
formatted message. -/
def handleDeleteUser (s : ViewState) (id : Nat) (confirmed : Bool)
    (r : ApiOutcome Unit) : ViewState × List ApiCall :=
  if !confirmed then (s, [])
  else
    match r with
    | ApiOutcome.ok _ =>
        let newUsers := s.users.filter (fun u => u.id != id)
        let newSel :=
          if s.selectedUser.any (fun u => u.id == id) then none else s.selectedUser
        ({ s with error := none, users := newUsers, selectedUser := newSel },
         [ApiCall.deleteUserCall id])
    | ApiOutcome.apiError _ msg =>
        ({ s with error := some ("Failed to delete user: " ++ msg) },
         [ApiCall.deleteUserCall id])
    | ApiOutcome.unexpected =>
        ({ s with error := some "An unexpected error occurred" },
         [ApiCall.deleteUserCall id])

/-! ## components/UserForm.tsx -/

/-- The local state of `UserForm.tsx`: the two controlled inputs and the
per-field error record (`errors.name` / `errors.email`). -/
structure FormState where
  name : String
  email : String
  nameError : Option String
  emailError : Option String
deriving Repr, DecidableEq

/-- The initial `UserForm.tsx` state for a given `user` prop:
`useState(user?.name || '')` and `useState(user?.email || '')`, no errors. -/
def userFormInit (user : Option User) : FormState :=
  ⟨(user.map User.name).getD "", (user.map User.email).getD "", none, none⟩

/-- Embedding of `validate` from `UserForm.tsx`: the per-field error record it builds.
Name: "Name is required" when empty after trimming. Email: "Email is
required" when empty after trimming, otherwise "Please enter a valid email
address" when the shape check fails. -/
def validateForm (name email : String) : Option String × Option String :=
  (if isNotEmpty name then none else some "Name is required",
   if isNotEmpty email then
     (if isValidEmail email then none else some "Please enter a valid email address")
   else some "Email is required")

/-- Embedding of `handleSubmit` from `UserForm.tsx`: runs `validate`; when the error
record is empty, calls `onSubmit` with the trimmed fields and then resets
both inputs to `''` and clears the errors; otherwise leaves the inputs and
shows the errors. The second component is the dto handed to `onSubmit`
(`none` means `onSubmit` was not invoked, so no network request follows).
The `user` prop is not read by this handler. -/
def handleFormSubmit (name email : String) : FormState × Option CreateUserDto :=
  let errs := validateForm name email
  if errs.1.isNone && errs.2.isNone then
    (⟨"", "", none, none⟩, some ⟨jsTrim name, jsTrim email⟩)
  else
    (⟨name, email, errs.1, errs.2⟩, none)

/-! ## The backend User Store -/

/-- A field named by a server-side validation error. -/
inductive FieldName where
  | nameField : FieldName
  | emailField : FieldName
deriving Repr, DecidableEq

/-- The server's in-memory collection together with its id counter. -/
structure StoreState where
  users : List User
  nextId : Nat
deriving Repr, DecidableEq

/-- Modelled from the spec: the backend User Store's `create` operation.
The backend users controller/store source is not present under `src/`
(the backend there contains only `ServerInfoController`), so this follows
§4.1 of the spec: `create(name, email)` validates both fields non-empty
(and email shape); on success assigns the next unused id, stores the
record with the trimmed fields, and returns it; on failure reports a
validation error naming the offending field(s). -/
def storeCreate (s : StoreState) (name email : String) :
    Except (List FieldName) (User × StoreState) :=
  let errs :=
    (if isNotEmpty name then [] else [FieldName.nameField]) ++
      (if isNotEmpty email && isValidEmail (jsTrim email) then [] else [FieldName.emailField])
  if errs.isEmpty then
    let u : User := ⟨s.nextId, jsTrim name, jsTrim email⟩
    Except.ok (u, ⟨s.users ++ [u], s.nextId + 1⟩)
  else
    Except.error errs

/-- The store's id discipline: every stored id is below the counter, so the
counter is always an unused id. -/
def storeInv (s : StoreState) : Prop :=
  ∀ u ∈ s.users, u.id < s.nextId

/-! ## backend ServerInfoController.cs -/

/-- The `System.Net.Sockets.AddressFamily` values relevant to the lookup. -/
inductive AddressFamily where
  | interNetwork : AddressFamily
  | interNetworkV6 : AddressFamily
  | otherFamily : AddressFamily
deriving Repr, DecidableEq

/-- An address from the host entry's `AddressList`: its family and the
string its `ToString()` renders. -/
structure IpAddress where
  family : AddressFamily
  text : String
deriving Repr, DecidableEq

/-- Embedding of `ServerIpDto(string Ip)` from `Application.DTOs`. -/
structure ServerIpDto where
  ip : String
deriving Repr, DecidableEq

/-- An `ActionResult`: a successful value or an error status code. -/
inductive ActionResult (T : Type) where
  | ok : T → ActionResult T
  | errorStatus : Nat → ActionResult T
deriving Repr, DecidableEq

/-- Embedding of `ServerInfoController.GetServerIp`, as a function of the DNS lookup's
outcome (the host entry's address list, or a thrown exception): take the
first address whose family is `InterNetwork`; fall back to `"127.0.0.1"`
when there is none or when any exception was raised. -/
def getServerIp (lookup : Except Unit (List IpAddress)) : ActionResult ServerIpDto :=
  match lookup with
  | Except.error _ => ActionResult.ok ⟨"127.0.0.1"⟩
  | Except.ok addrs =>
    match addrs.find? (fun a => a.family == AddressFamily.interNetwork) with
    | some a => ActionResult.ok ⟨a.text⟩
    | none => ActionResult.ok ⟨"127.0.0.1"⟩

/-! ## Claim theorems -/

/-- Claim C8: for every string `s`, `isValidEmail s` returns true iff `s` has
the shape local@domain.tld — a nonempty run of characters that are neither
whitespace nor `@`, then `@`, then a nonempty such run, then `.`, then a
final nonempty such run; in particular `isValidEmail "notanemail"` is false. -/
theorem claim_c8_email_shape :
    (∀ s : String, isValidEmail s = true ↔
      ∃ a b c : List Char,
        s.data = a ++ '@' :: (b ++ '.' :: c) ∧
        a ≠ [] ∧ b ≠ [] ∧ c ≠ [] ∧
        (∀ x ∈ a, isEmailChar x = true) ∧
        (∀ x ∈ b, isEmailChar x = true) ∧
        (∀ x ∈ c, isEmailChar x = true)) ∧
    isValidEmail "notanemail" = false :=
  ⟨isValidEmail_iff, by decide⟩

/-- Witness for claim C8: the characterization instantiated at a concrete
address that decomposes as local@domain.tld. -/
theorem claim_c8_email_shape_witness : isValidEmail "ada@example.com" = true :=
  (claim_c8_email_shape.1 "ada@example.com").mpr
    ⟨['a', 'd', 'a'], ['e', 'x', 'a', 'm', 'p', 'l', 'e'], ['c', 'o', 'm'],
      by decide, by decide, by decide, by decide, by decide, by decide, by decide⟩

/-- Claim C3 counterexample: a 500 response whose body text is empty. The
thrown ApiError's message is the response's status text
("Internal Server Error"), not the response body text (""), so the message
does not equal the body text as the claim states. -/
theorem claim_c3_counterexample :
    handleResponse (⟨500, "Internal Server Error", "", ()⟩ : HttpResponse Unit) =
      Except.error ⟨500, "Internal Server Error"⟩ ∧
    ("Internal Server Error" : String) ≠ "" := by
  exact ⟨rfl, by decide⟩

/-- Claim C3 (amended): for every response, a success status yields the parsed
body; any non-success status fails with an ApiError whose status equals the
HTTP status and whose message equals the body text when that text is
nonempty, and the response's status text when the body text is empty — for
`handleResponse` and for the inline handling in `deleteUser` alike. -/
theorem claim_c3_status_handling {T : Type} (r : HttpResponse T) (rd : HttpResponse Unit) :
    (respOk r = true → handleResponse r = Except.ok r.jsonBody) ∧
    (respOk r = false →
      ∃ e : ApiErr, handleResponse r = Except.error e ∧ e.status = r.status ∧
        (r.bodyText ≠ "" → e.message = r.bodyText) ∧
        (r.bodyText = "" → e.message = r.statusText)) ∧
    (respOk rd = true → deleteUserHandle rd = Except.ok ()) ∧
    (respOk rd = false →
      ∃ e : ApiErr, deleteUserHandle rd = Except.error e ∧ e.status = rd.status ∧
        (rd.bodyText ≠ "" → e.message = rd.bodyText) ∧
        (rd.bodyText = "" → e.message = rd.statusText)) := by
  refine ⟨fun h => ?_, fun h => ?_, fun h => ?_, fun h => ?_⟩
  · simp [handleResponse, h]
  · refine ⟨⟨r.status, if r.bodyText = "" then r.statusText else r.bodyText⟩,
      by simp [handleResponse, h], rfl, fun hb => by simp [hb], fun hb => by simp [hb]⟩
  · simp [deleteUserHandle, h]
  · refine ⟨⟨rd.status, if rd.bodyText = "" then rd.statusText else rd.bodyText⟩,
      by simp [deleteUserHandle, h], rfl, fun hb => by simp [hb], fun hb => by simp [hb]⟩

/-- Witness for claim C3 (amended): a 500 response with nonempty body "boom"
produces `ApiError 500 "boom"`. -/
theorem claim_c3_status_handling_witness :
    handleResponse (⟨500, "Server Error", "boom", ()⟩ : HttpResponse Unit) =
      Except.error ⟨500, "boom"⟩ := by
  obtain ⟨-, h, -, -⟩ :=
    claim_c3_status_handling (⟨500, "Server Error", "boom", ()⟩ : HttpResponse Unit)
      (⟨204, "No Content", "", ()⟩ : HttpResponse Unit)
  obtain ⟨⟨st, msg⟩, he, hst, hbody, -⟩ := h (by decide)
  have hst2 : st = 500 := hst
  have hmsg : msg = "boom" := hbody (by decide)
  subst hst2
  subst hmsg
  exact he

/-- Claim C1, evaluated on the code at the failing input: with
`selectedUser` present, the handler `Users.tsx` wires into the form is still
`handleCreateUser`, so the network call made is `createUser` (not
`updateUser`), and the returned user is appended to `users` rather than
replacing the entry with the matching id; `selectedUser` keeps pointing at
the old record. -/
theorem claim_c1_submit_wiring :
    usersFormSubmit
        ⟨[⟨1, "Ada", "ada@example.com"⟩], false, none, some ⟨1, "Ada", "ada@example.com"⟩⟩
        ⟨"Ada Lovelace", "ada@example.com"⟩
        (ApiOutcome.ok ⟨2, "Ada Lovelace", "ada@example.com"⟩) =
      (⟨[⟨1, "Ada", "ada@example.com"⟩, ⟨2, "Ada Lovelace", "ada@example.com"⟩],
        false, none, some ⟨1, "Ada", "ada@example.com"⟩⟩,
       [ApiCall.createUserCall ⟨"Ada Lovelace", "ada@example.com"⟩]) := by
  decide

/-- Claim C4: when the create submission's API call rejects with an ApiError,
the View's error becomes a message containing the ApiError's message text and
`users` (as well as `loading` and `selectedUser`) is exactly what it was
before the submission. -/
theorem claim_c4_create_error_state (s : ViewState) (status : Nat) (msg : String) :
    (∃ p q, (handleCreateUser s (ApiOutcome.apiError status msg)).error =
      some (p ++ msg ++ q)) ∧
    (handleCreateUser s (ApiOutcome.apiError status msg)).users = s.users ∧
    (handleCreateUser s (ApiOutcome.apiError status msg)).loading = s.loading ∧
    (handleCreateUser s (ApiOutcome.apiError status msg)).selectedUser = s.selectedUser :=
  ⟨⟨"Failed to create user: ", "", by simp [handleCreateUser]⟩, rfl, rfl, rfl⟩

/-- Claim C5: on mount the View enters loading and issues exactly one
`getUsers()` call; if it resolves with a list then `users` equals that list,
`loading` is false and `error` is absent; if it rejects with an ApiError then
`error` is the formatted message and `loading` is false. -/
theorem claim_c5_mount :
    (∀ data : List User,
      (mountEffect (ApiOutcome.ok data)).2 = [ApiCall.getUsersCall] ∧
      (loadUsersPending initialViewState).loading = true ∧
      (mountEffect (ApiOutcome.ok data)).1.users = data ∧
      (mountEffect (ApiOutcome.ok data)).1.loading = false ∧
      (mountEffect (ApiOutcome.ok data)).1.error = none) ∧
    (∀ (status : Nat) (msg : String),
      (mountEffect (ApiOutcome.apiError status msg)).2 = [ApiCall.getUsersCall] ∧
      (mountEffect (ApiOutcome.apiError status msg)).1.error =
        some ("Failed to load users: " ++ msg) ∧
      (mountEffect (ApiOutcome.apiError status msg)).1.loading = false) :=
  ⟨fun _ => ⟨rfl, rfl, rfl, rfl, rfl⟩, fun _ _ => ⟨rfl, rfl, rfl⟩⟩

/-- Claim C6: declining the confirmation gate makes no network call and
leaves the state unchanged; a confirmed, successful `deleteUser(id)` removes
the record with that id from `users` (keeping every other record) and clears
`selectedUser` exactly when its id equals the deleted id; a confirmed
`deleteUser(id)` that fails with ApiError sets `error` and leaves `users`
unchanged. -/
theorem claim_c6_delete (s : ViewState) (id : Nat) :
    (∀ r, handleDeleteUser s id false r = (s, [])) ∧
    (handleDeleteUser s id true (ApiOutcome.ok ())).2 = [ApiCall.deleteUserCall id] ∧
    (∀ u ∈ (handleDeleteUser s id true (ApiOutcome.ok ())).1.users, u.id ≠ id) ∧
    (∀ u ∈ s.users, u.id ≠ id → u ∈ (handleDeleteUser s id true (ApiOutcome.ok ())).1.users) ∧
    (∀ u, s.selectedUser = some u →
      ((handleDeleteUser s id true (ApiOutcome.ok ())).1.selectedUser = none ↔ u.id = id)) ∧
    (∀ (status : Nat) (msg : String),
      (handleDeleteUser s id true (ApiOutcome.apiError status msg)).1.error =
        some ("Failed to delete user: " ++ msg) ∧
      (handleDeleteUser s id true (ApiOutcome.apiError status msg)).1.users = s.users ∧
      (handleDeleteUser s id true (ApiOutcome.apiError status msg)).1.selectedUser =
        s.selectedUser) := by
  refine ⟨fun r => rfl, rfl, ?_, ?_, ?_, fun status msg => ⟨rfl, rfl, rfl⟩⟩
  · intro u hu
    have h := List.mem_filter.mp hu
    exact bne_iff_ne.mp h.2
  · intro u hu hne
    exact List.mem_filter.mpr ⟨hu, bne_iff_ne.mpr hne⟩
  · intro u hsel
    show (if s.selectedUser.any (fun v => v.id == id) then none else s.selectedUser)
        = none ↔ u.id = id
    rw [hsel]
    by_cases h : u.id = id
    · simp [Option.any, h]
    · simp [Option.any, h]

/-- Witness for claim C6: deleting id 1 with the selected user of id 1 clears
the selection; declining the gate changes nothing. -/
theorem claim_c6_delete_witness :
    (handleDeleteUser
        ⟨[⟨1, "Ada", "ada@example.com"⟩], false, none, some ⟨1, "Ada", "ada@example.com"⟩⟩
        1 true (ApiOutcome.ok ())).1.selectedUser = none ∧
    handleDeleteUser
        ⟨[⟨1, "Ada", "ada@example.com"⟩], false, none, some ⟨1, "Ada", "ada@example.com"⟩⟩
        1 false (ApiOutcome.ok ()) =
      (⟨[⟨1, "Ada", "ada@example.com"⟩], false, none, some ⟨1, "Ada", "ada@example.com"⟩⟩, []) := by
  have h := claim_c6_delete
    ⟨[⟨1, "Ada", "ada@example.com"⟩], false, none, some ⟨1, "Ada", "ada@example.com"⟩⟩ 1
  exact ⟨(h.2.2.2.2.1 ⟨1, "Ada", "ada@example.com"⟩ rfl).mpr rfl, h.1 (ApiOutcome.ok ())⟩

/-- Claim C7: when the name is empty after trimming, client-side validation
fails before any network call: `onSubmit` is not invoked (the handler hands
no dto on) and the per-field message "Name is required" is recorded for the
name field. -/
theorem claim_c7_empty_name (name email : String) (h : jsTrim name = "") :
    (handleFormSubmit name email).2 = none ∧
    (handleFormSubmit name email).1.nameError = some "Name is required" := by
  have hne : isNotEmpty name = false := by
    simp [isNotEmpty, h]
  constructor
  · simp [handleFormSubmit, validateForm, hne]
  · simp [handleFormSubmit, validateForm, hne]

/-- Witness for claim C7: submitting with a blank name and a well-formed
email invokes no API call and flags the name field. -/
theorem claim_c7_empty_name_witness :
    (handleFormSubmit "   " "ada@example.com").2 = none ∧
    (handleFormSubmit "   " "ada@example.com").1.nameError = some "Name is required" :=
  claim_c7_empty_name "   " "ada@example.com" (by decide)

/-- Claim C9 (implicit): every submission that passes client validation hands
`onSubmit` the trimmed name and email and resets the form to the pristine
create-mode state (both inputs empty, no field errors) — `handleFormSubmit`
depends neither on the `user` prop nor on the API call's later outcome, so
this holds in edit mode too and the edited user's fields are not retained. -/
theorem claim_c9_submit_resets (name email : String)
    (hn : isNotEmpty name = true) (he : isNotEmpty email = true)
    (hv : isValidEmail email = true) :
    handleFormSubmit name email = (userFormInit none, some ⟨jsTrim name, jsTrim email⟩) := by
  simp [handleFormSubmit, validateForm, hn, he, hv, userFormInit]

/-- Witness for claim C9: a valid submission with padded name is trimmed,
handed on, and the form is reset. -/
theorem claim_c9_submit_resets_witness :
    handleFormSubmit " Ada " "ada@example.com" =
      (userFormInit none, some ⟨"Ada", "ada@example.com"⟩) := by
  have h := claim_c9_submit_resets " Ada " "ada@example.com" (by decide) (by decide) (by decide)
  rw [h]
  decide

/-- Claim C2 (store modelled from the spec): for every valid (name, email)
pair and every store satisfying the id discipline, `create` succeeds with a
User whose id differs from every previously stored id, whose fields are the
trimmed inputs, and which is stored alongside the existing records; the id
discipline is preserved. -/
theorem claim_c2_store_create (s : StoreState) (name email : String)
    (hinv : storeInv s) (hn : isNotEmpty name = true)
    (he : isNotEmpty email = true) (hv : isValidEmail (jsTrim email) = true) :
    ∃ u s2, storeCreate s name email = Except.ok (u, s2) ∧
      u.name = jsTrim name ∧ u.email = jsTrim email ∧
      (∀ v ∈ s.users, v.id ≠ u.id) ∧
      u ∈ s2.users ∧ (∀ v ∈ s.users, v ∈ s2.users) ∧ storeInv s2 := by
  refine ⟨⟨s.nextId, jsTrim name, jsTrim email⟩,
    ⟨s.users ++ [⟨s.nextId, jsTrim name, jsTrim email⟩], s.nextId + 1⟩,
    ?_, rfl, rfl, ?_, ?_, ?_, ?_⟩
  · simp [storeCreate, hn, he, hv]
  · intro v hv2
    exact Nat.ne_of_lt (hinv v hv2)
  · simp
  · intro v hv2
    simp [hv2]
  · intro w hw
    rcases List.mem_append.mp hw with h | h
    · exact Nat.lt_trans (hinv w h) (Nat.lt_succ_self _)
    · simp at h
      subst h
      exact Nat.lt_succ_self _

/-- Witness for claim C2: creating "Bob" in a store already holding id 0
yields the fresh id 1 and keeps both records. -/
theorem claim_c2_store_create_witness :
    ∃ u s2, storeCreate ⟨[⟨0, "Ada", "ada@example.com"⟩], 1⟩ "Bob" "bob@example.com" =
        Except.ok (u, s2) ∧
      u.name = "Bob" ∧ u.email = "bob@example.com" ∧
      (∀ v ∈ [(⟨0, "Ada", "ada@example.com"⟩ : User)], v.id ≠ u.id) ∧ u ∈ s2.users := by
  obtain ⟨u, s2, h1, h2, h3, h4, h5, -, -⟩ :=
    claim_c2_store_create ⟨[⟨0, "Ada", "ada@example.com"⟩], 1⟩ "Bob" "bob@example.com"
      (by intro v hv2; simp only [List.mem_singleton] at hv2; subst hv2; decide)
      (by decide) (by decide) (by decide)
  exact ⟨u, s2, h1, h2.trans (by decide), h3.trans (by decide), h4, h5⟩

/-- Claim C10 (implicit): `GetServerIp` is total and never an error status —
for every lookup outcome it returns a `ServerIpDto` whose ip is the first
IPv4 (`InterNetwork`) address of the host's address list when one exists
(`List.find?` returns the first satisfying element), and "127.0.0.1" both
when the list holds no IPv4 address and when the lookup raised. -/
theorem claim_c10_server_ip (lookup : Except Unit (List IpAddress)) :
    ∃ dto : ServerIpDto, getServerIp lookup = ActionResult.ok dto ∧
      (∀ e, lookup = Except.error e → dto.ip = "127.0.0.1") ∧
      (∀ addrs, lookup = Except.ok addrs →
        (∀ a, addrs.find? (fun x => x.family == AddressFamily.interNetwork) = some a →
          dto.ip = a.text) ∧
        (addrs.find? (fun x => x.family == AddressFamily.interNetwork) = none →
          dto.ip = "127.0.0.1")) := by
  cases lookup with
  | error e =>
    refine ⟨⟨"127.0.0.1"⟩, rfl, ?_, ?_⟩
    · intro e2 h2
      rfl
    · intro addrs h2
      exact absurd h2 (by simp)
  | ok addrs =>
    cases hfind : addrs.find? (fun x => x.family == AddressFamily.interNetwork) with
    | none =>
      refine ⟨⟨"127.0.0.1"⟩, ?_, ?_, ?_⟩
      · simp [getServerIp, hfind]
      · intro e2 h2
        exact absurd h2 (by simp)
      · intro l h2
        injection h2 with h3
        subst h3
        refine ⟨?_, fun _ => rfl⟩
        intro a ha
        rw [hfind] at ha
        exact absurd ha (by simp)
    | some a0 =>
      refine ⟨⟨a0.text⟩, ?_, ?_, ?_⟩
      · simp [getServerIp, hfind]
      · intro e2 h2
        exact absurd h2 (by simp)
      · intro l h2
        injection h2 with h3
        subst h3
        refine ⟨?_, ?_⟩
        · intro a ha
          rw [hfind] at ha
          injection ha with h4
          rw [h4]
        · intro hnone
          rw [hfind] at hnone
          exact absurd hnone (by simp)

/-- Witness for claim C10: with an IPv6 address first and an IPv4 address
second, the endpoint returns the IPv4 address. -/
theorem claim_c10_server_ip_witness :
    getServerIp (Except.ok
        [⟨AddressFamily.interNetworkV6, "::1"⟩, ⟨AddressFamily.interNetwork, "192.168.0.2"⟩]) =
      ActionResult.ok ⟨"192.168.0.2"⟩ := by
  obtain ⟨dto, h1, -, h3⟩ := claim_c10_server_ip (Except.ok
    [⟨AddressFamily.interNetworkV6, "::1"⟩, ⟨AddressFamily.interNetwork, "192.168.0.2"⟩])
  have h4 := (h3 _ rfl).1 ⟨AddressFamily.interNetwork, "192.168.0.2"⟩ (by decide)
  obtain ⟨ip⟩ := dto
  have h5 : ip = "192.168.0.2" := h4
  subst h5
  exact h1
